import Mathlib

/-!
Shallow embedding of the flagstruct package (creachadair/flagstruct).

The authoritative source is src/unnamed/part_002, the variant of the package
that supports the flag-default tag; src/flagstruct.go is the same package
without default handling and agrees with part_002 on everything both define.

Modelling conventions:
  * Go strings are modelled as Lean String / List Char.  The Go code indexes
    bytes; every branch point in the modelled code tests ASCII characters, so
    the character-level view coincides with the byte-level one there.
  * Machine integers are modelled as Nat / Int with explicit bounds
    (int is treated as 64-bit, as on the platforms the package targets).
  * A Go panic is a distinct outcome constructor, not an error value.
  * The external flag.FlagSet collaborator is modelled as a list of installed
    flags; FlagSet.Var panics on a redefined name, as in the Go standard
    library.
-/

namespace Flagstruct

/-- Error values that can be returned by registration.  Each constructor
records the data the corresponding Go error value carries:
`numError` models strconv.NumError (function name, input string, reason),
`timeInvalidDuration` and friends model the time.ParseDuration error strings,
`customSetError` models the error returned by a custom flag.Value Set method,
and the remaining constructors model the errors.New/fmt.Errorf values created
in src/unnamed/part_002. -/
inductive Err where
  | notPointer
  | notStruct
  | noFlaggable
  | unsupportedType (typeName : String)
  | numError (fn : String) (num : String) (reason : String)
  | timeInvalidDuration (orig : String)
  | timeMissingUnit (orig : String)
  | timeUnknownUnit (unit : String) (orig : String)
  | customSetError (msg : String)
deriving DecidableEq

/-- The message rendered by the Go error values modelled by `Err`. -/
def Err.message : Err → String
  | .notPointer => "value must be a pointer"
  | .notStruct => "value must be a struct"
  | .noFlaggable => "struct contains no flaggable fields"
  | .unsupportedType tn => "type " ++ tn ++ " does not implement flag.Value"
  | .numError fn num reason =>
      "strconv." ++ fn ++ ": parsing \"" ++ num ++ "\": " ++ reason
  | .timeInvalidDuration orig => "time: invalid duration \"" ++ orig ++ "\""
  | .timeMissingUnit orig => "time: missing unit in duration \"" ++ orig ++ "\""
  | .timeUnknownUnit u orig =>
      "time: unknown unit \"" ++ u ++ "\" in duration \"" ++ orig ++ "\""
  | .customSetError msg => msg

/-! ### strconv number parsing (Go standard library collaborators)

`setDefault` calls strconv.ParseBool, strconv.ParseInt(s, 0, 64),
strconv.ParseUint(s, 0, 64), strconv.ParseFloat(s, 64) and
time.ParseDuration.  These are modelled here following the Go sources. -/

/-- Go strconv `lower`: maps an ASCII letter to lower case (`c | 0x20`). -/
def lowerc (c : Char) : Char := Char.ofNat (c.toNat ||| 32)

/-- Digit value of a character as in the Go strconv digit loop:
decimal digits, then letters with value 10 and up; `none` otherwise. -/
def digitVal (c : Char) : Option Nat :=
  if '0' ≤ c ∧ c ≤ '9' then some (c.toNat - '0'.toNat)
  else if 'a' ≤ lowerc c ∧ lowerc c ≤ 'z' then some ((lowerc c).toNat - 'a'.toNat + 10)
  else none

/-- Error kind of a strconv number parse: invalid syntax or out of range. -/
inductive NumKind where
  | syn
  | range
deriving DecidableEq

/-- Reason string of a strconv error kind. -/
def NumKind.msg : NumKind → String
  | .syn => "invalid syntax"
  | .range => "value out of range"

/-- State step of Go strconv `underscoreOK`'s scan: the `saw` character. -/
def underscoreOKGo : Bool → Char → List Char → Bool
  | _, saw, [] => saw ≠ '_'
  | hex, saw, c :: rest =>
    if ('0' ≤ c ∧ c ≤ '9') ∨ (hex ∧ 'a' ≤ lowerc c ∧ lowerc c ≤ 'f') then
      underscoreOKGo hex '0' rest
    else if c = '_' then
      if saw ≠ '0' then false else underscoreOKGo hex '_' rest
    else if saw = '_' then false
    else underscoreOKGo hex '!' rest

/-- Go strconv `underscoreOK`: underscores must separate digits (or follow a
base prefix).  Mirrors the Go function: skip an optional sign, then an
optional `0b`/`0o`/`0x` prefix (which counts as a digit), then scan. -/
def underscoreOK (cs : List Char) : Bool :=
  let cs1 := match cs with
    | c :: rest => if c = '-' ∨ c = '+' then rest else cs
    | [] => []
  match cs1 with
  | '0' :: c1 :: rest =>
    if lowerc c1 = 'b' ∨ lowerc c1 = 'o' ∨ lowerc c1 = 'x' then
      underscoreOKGo (lowerc c1 = 'x') '0' rest
    else underscoreOKGo false '^' cs1
  | _ => underscoreOKGo false '^' cs1

/-- Base detection of Go strconv.ParseUint with base argument 0:
`0b`/`0o`/`0x` prefixes (only when at least one character follows them),
a bare leading `0` means octal, otherwise decimal. -/
def detectBase : List Char → Nat × List Char
  | '0' :: c1 :: c2 :: rest =>
    if lowerc c1 = 'b' then (2, c2 :: rest)
    else if lowerc c1 = 'o' then (8, c2 :: rest)
    else if lowerc c1 = 'x' then (16, c2 :: rest)
    else (8, c1 :: c2 :: rest)
  | '0' :: rest => (8, rest)
  | cs => (10, cs)

/-- Digit accumulation loop of Go strconv.ParseUint (base argument 0, so
underscores are skipped; position validity is checked by `underscoreOK`).
`cutoff` and `maxVal` are as in the Go source for bitSize 64. -/
def digitsLoop (base cutoff maxVal : Nat) : List Char → Nat → Except NumKind Nat
  | [], n => .ok n
  | c :: rest, n =>
    if c = '_' then digitsLoop base cutoff maxVal rest n
    else
      match digitVal c with
      | none => .error .syn
      | some d =>
        if base ≤ d then .error .syn
        else if cutoff ≤ n then .error .range
        else if maxVal < n * base + d then .error .range
        else digitsLoop base cutoff maxVal rest (n * base + d)

/-- Core of Go strconv.ParseUint(s, 0, 64) on the character list of the
input (sign already handled by the caller where applicable). -/
def parseUintCore (cs : List Char) : Except NumKind Nat :=
  if cs = [] then .error .syn
  else if underscoreOK cs = false then .error .syn
  else
    let b := detectBase cs
    digitsLoop b.1 ((2 ^ 64 - 1) / b.1 + 1) (2 ^ 64 - 1) b.2 0

/-- Go strconv.ParseUint(s, 0, 64).  Errors carry the function name
"ParseUint" and the original input, as strconv.NumError does. -/
def parseUint (s : String) : Except Err Nat :=
  match parseUintCore s.data with
  | .error k => .error (.numError "ParseUint" s k.msg)
  | .ok n => .ok n

/-- Signed wrap-up of Go strconv.ParseInt(s, 0, 64) after the sign has been
stripped: run the unsigned core on the remaining digits, then apply the
signed 64-bit cutoff.  All errors carry the function name "ParseInt" and the
original (signed) input string, as in the Go source, which rewrites the
inner ParseUint error before returning it. -/
def parseIntCore (neg : Bool) (s : String) (digits : List Char) : Except Err Int :=
  match parseUintCore digits with
  | .error k => .error (.numError "ParseInt" s k.msg)
  | .ok un =>
    if neg = false ∧ 2 ^ 63 ≤ un then .error (.numError "ParseInt" s NumKind.range.msg)
    else if neg = true ∧ 2 ^ 63 < un then .error (.numError "ParseInt" s NumKind.range.msg)
    else .ok (if neg then -(un : Int) else (un : Int))

/-- Go strconv.ParseInt(s, 0, 64): strip an optional sign, then the signed
wrap-up of the unsigned core. -/
def parseInt (s : String) : Except Err Int :=
  match s.data with
  | [] => .error (.numError "ParseInt" s NumKind.syn.msg)
  | c :: rest =>
    if c = '-' then parseIntCore true s rest
    else if c = '+' then parseIntCore false s rest
    else parseIntCore false s (c :: rest)

/-- Go strconv.ParseBool: accepts exactly the listed literals. -/
def parseBool (s : String) : Except Err Bool :=
  if s = "1" ∨ s = "t" ∨ s = "T" ∨ s = "true" ∨ s = "TRUE" ∨ s = "True" then .ok true
  else if s = "0" ∨ s = "f" ∨ s = "F" ∨ s = "false" ∨ s = "FALSE" ∨ s = "False" then .ok false
  else .error (.numError "ParseBool" s NumKind.syn.msg)

/-! ### strconv.ParseFloat(s, 64)

Modelled from the Go source (readFloat/atof64/special).  The parsed value is
kept as an exact rational instead of being rounded to an IEEE-754 binary64;
the overflow boundary is the exact rounding boundary to infinity of binary64,
(2^54 - 1) * 2^970.  No claim of this development depends on float values, so
rounding (including the silent underflow to zero) is not modelled further. -/

/-- A parsed float64 value: an exact rational, an infinity or a NaN. -/
inductive FloatRep where
  | finite (q : Rat)
  | inf (neg : Bool)
  | nan
deriving DecidableEq

/-- Absolute value of a rational, written out to keep evaluation direct. -/
def ratAbs (q : Rat) : Rat := if q < 0 then -q else q

/-- Character is a digit of the given base, per `digitVal`. -/
def isDigitB (base : Nat) (c : Char) : Bool :=
  match digitVal c with
  | some d => d < base
  | none => false

/-- Value of a digit string in the given base (digits already validated). -/
def natOfDigits (base : Nat) (ds : List Char) : Nat :=
  ds.foldl (fun n c => n * base + ((digitVal c).getD 0)) 0

/-- Integer power of a rational with an Int exponent. -/
def qpow (b : Rat) (e : Int) : Rat :=
  if 0 ≤ e then b ^ e.toNat else 1 / b ^ (-e).toNat

/-- Mantissa scanner of Go readFloat: digits of the given base with at most
one decimal point, at least one digit overall; returns the exact value and
the unconsumed rest. -/
def scanMant (base : Nat) (cs : List Char) : Option (Rat × List Char) :=
  let ip := cs.takeWhile (isDigitB base)
  let cs1 := cs.drop ip.length
  match cs1 with
  | '.' :: r =>
    let fp := r.takeWhile (isDigitB base)
    let cs2 := r.drop fp.length
    if ip = [] ∧ fp = [] then none
    else some ((natOfDigits base ip : Rat)
        + (natOfDigits base fp : Rat) / ((base : Rat) ^ fp.length), cs2)
  | _ => if ip = [] then none else some ((natOfDigits base ip : Rat), cs1)

/-- Exponent scanner of Go readFloat (after the `e`/`p` marker): an optional
sign then at least one decimal digit. -/
def scanExp (cs : List Char) : Option (Int × List Char) :=
  let sd := match cs with
    | '+' :: r => (false, r)
    | '-' :: r => (true, r)
    | _ => (false, cs)
  let ds := sd.2.takeWhile (isDigitB 10)
  if ds = [] then none
  else
    let n : Int := natOfDigits 10 ds
    some (if sd.1 then -n else n, sd.2.drop ds.length)

/-- Decimal float grammar of Go readFloat: mantissa, then an optional
`e`-exponent; the whole input must be consumed. -/
def scanDec (cs : List Char) : Option Rat :=
  match scanMant 10 cs with
  | none => none
  | some (m, cs2) =>
    match cs2 with
    | [] => some m
    | e :: r =>
      if lowerc e = 'e' then
        match scanExp r with
        | some (ex, []) => some (m * qpow 10 ex)
        | _ => none
      else none

/-- Full float grammar of Go readFloat on an underscore-free input:
optional sign, then either a hexadecimal mantissa with a mandatory
`p`-exponent or the decimal grammar. -/
def scanFloat (cs : List Char) : Option Rat :=
  let sd := match cs with
    | '+' :: r => (false, r)
    | '-' :: r => (true, r)
    | _ => (false, cs)
  let out : Option Rat :=
    match sd.2 with
    | '0' :: x :: r =>
      if lowerc x = 'x' then
        match scanMant 16 r with
        | none => none
        | some (m, cs2) =>
          match cs2 with
          | p :: r2 =>
            if lowerc p = 'p' then
              match scanExp r2 with
              | some (ex, []) => some (m * qpow 2 ex)
              | _ => none
            else none
          | [] => none
      else scanDec sd.2
    | _ => scanDec sd.2
  match out with
  | none => none
  | some q => some (if sd.1 then -q else q)

/-- Go strconv `special`: the words accepted as infinities and NaN,
case-insensitively; a sign is allowed only on the infinities. -/
def specialFloat (s : String) : Option FloatRep :=
  let l := String.mk (s.data.map lowerc)
  if l = "inf" ∨ l = "+inf" ∨ l = "infinity" ∨ l = "+infinity" then some (.inf false)
  else if l = "-inf" ∨ l = "-infinity" then some (.inf true)
  else if l = "nan" then some .nan
  else none

/-- Rounding boundary to infinity of binary64: values at least this large in
magnitude make Go strconv.ParseFloat report a range error. -/
def floatOverflowBound : Rat := ((2 ^ 54 - 1 : Nat) : Rat) * (2 : Rat) ^ (970 : Nat)

/-- Go strconv.ParseFloat(s, 64). -/
def parseFloat64 (s : String) : Except Err FloatRep :=
  match specialFloat s with
  | some fr => .ok fr
  | none =>
    if underscoreOK s.data then
      match scanFloat (s.data.filter (fun c => c ≠ '_')) with
      | some q =>
        if floatOverflowBound ≤ ratAbs q then
          .error (.numError "ParseFloat" s NumKind.range.msg)
        else .ok (.finite q)
      | none => .error (.numError "ParseFloat" s NumKind.syn.msg)
    else .error (.numError "ParseFloat" s NumKind.syn.msg)

/-! ### time.ParseDuration

Modelled from the Go source.  Go computes the fractional part of each
component with float64 arithmetic before truncating to an integer; here the
same quantity is computed with exact integer arithmetic (truncated division),
which can differ from Go by at most the last nanosecond of a fractional
component.  No claim of this development depends on duration values. -/

/-- Go time `leadingInt`: consume leading decimal digits into an int64,
failing on overflow; returns the value and the unconsumed rest. -/
def leadingInt : List Char → Nat → Option (Nat × List Char)
  | [], x => some (x, [])
  | c :: rest, x =>
    if '0' ≤ c ∧ c ≤ '9' then
      if (2 ^ 63 - 1) / 10 < x then none
      else
        let x' := x * 10 + (c.toNat - '0'.toNat)
        if 2 ^ 63 ≤ x' then none
        else leadingInt rest x'
    else some (x, c :: rest)

/-- Go time `leadingFraction`: consume leading decimal digits as a fraction
numerator with its power-of-ten scale, silently stopping the accumulation on
overflow; returns numerator, scale and the unconsumed rest. -/
def leadingFraction : List Char → Nat → Nat → Bool → Nat × Nat × List Char
  | [], x, scale, _ => (x, scale, [])
  | c :: rest, x, scale, overflow =>
    if '0' ≤ c ∧ c ≤ '9' then
      if overflow then leadingFraction rest x scale overflow
      else if (2 ^ 63 - 1) / 10 < x then leadingFraction rest x scale true
      else leadingFraction rest (x * 10 + (c.toNat - '0'.toNat)) (scale * 10) overflow
    else (x, scale, c :: rest)

/-- Fraction step of one duration component: consumed only after a dot. -/
structure FracOut where
  f : Nat
  scale : Nat
  rem : List Char
  post : Bool

/-- Consume the optional fractional digits of a duration component. -/
def durFrac (s1 : List Char) : FracOut :=
  match s1 with
  | '.' :: r =>
    let t := leadingFraction r 0 1 false
    { f := t.1, scale := t.2.1, rem := t.2.2, post := t.2.2.length ≠ r.length }
  | _ => { f := 0, scale := 1, rem := s1, post := false }

/-- A character that continues a duration unit name (not a digit or dot). -/
def durUnitChar (c : Char) : Bool :=
  !(c == '.') && !('0'.toNat ≤ c.toNat && c.toNat ≤ '9'.toNat)

/-- Go time `unitMap`: nanoseconds per unit. -/
def unitLookup (u : String) : Option Nat :=
  if u = "ns" then some 1
  else if u = "us" then some 1000
  else if u = "µs" then some 1000
  else if u = "μs" then some 1000
  else if u = "ms" then some 1000000
  else if u = "s" then some 1000000000
  else if u = "m" then some 60000000000
  else if u = "h" then some 3600000000000
  else none

/-- The component loop of Go time.ParseDuration: each round consumes an
integer part, an optional fraction and a unit, accumulating nanoseconds with
the overflow checks of the Go source. -/
def durLoop (orig : String) (cs : List Char) (d : Nat) : Except Err Nat :=
  match cs with
  | [] => .ok d
  | c0 :: rest0 =>
    if ¬(c0 = '.' ∨ ('0' ≤ c0 ∧ c0 ≤ '9')) then .error (.timeInvalidDuration orig)
    else
      match h1 : leadingInt (c0 :: rest0) 0 with
      | none => .error (.timeInvalidDuration orig)
      | some (v, s1) =>
        if s1.length = (c0 :: rest0).length ∧ (durFrac s1).post = false then
          .error (.timeInvalidDuration orig)
        else if hu : (durFrac s1).rem.takeWhile durUnitChar = [] then
          .error (.timeMissingUnit orig)
        else
          match unitLookup (String.mk ((durFrac s1).rem.takeWhile durUnitChar)) with
          | none =>
            .error (.timeUnknownUnit (String.mk ((durFrac s1).rem.takeWhile durUnitChar)) orig)
          | some unit =>
            if (2 ^ 63 - 1) / unit < v then .error (.timeInvalidDuration orig)
            else if 2 ^ 63 ≤ v * unit + ((durFrac s1).f * unit) / (durFrac s1).scale then
              .error (.timeInvalidDuration orig)
            else if 2 ^ 63 ≤ d + (v * unit + ((durFrac s1).f * unit) / (durFrac s1).scale) then
              .error (.timeInvalidDuration orig)
            else
              durLoop orig ((durFrac s1).rem.drop ((durFrac s1).rem.takeWhile durUnitChar).length)
                (d + (v * unit + ((durFrac s1).f * unit) / (durFrac s1).scale))
termination_by cs.length
decreasing_by
  have hli : ∀ (l : List Char) (x v : Nat) (rem : List Char),
      leadingInt l x = some (v, rem) → rem.length ≤ l.length := by
    intro l
    induction l with
    | nil =>
      intro x v rem h
      simp only [leadingInt, Option.some.injEq, Prod.mk.injEq] at h
      simp [← h.2]
    | cons c rest ih =>
      intro x v rem h
      simp only [leadingInt] at h
      split at h
      · split at h
        · exact absurd h (by simp)
        · split at h
          · exact absurd h (by simp)
          · exact Nat.le_succ_of_le (ih _ _ _ h)
      · simp only [Option.some.injEq, Prod.mk.injEq] at h
        simp [← h.2]
  have hlf : ∀ (l : List Char) (x scale : Nat) (ov : Bool),
      (leadingFraction l x scale ov).2.2.length ≤ l.length := by
    intro l
    induction l with
    | nil => intro x scale ov; simp [leadingFraction]
    | cons c rest ih =>
      intro x scale ov
      simp only [leadingFraction]
      split
      · split
        · exact Nat.le_succ_of_le (ih _ _ _)
        · split
          · exact Nat.le_succ_of_le (ih _ _ _)
          · exact Nat.le_succ_of_le (ih _ _ _)
      · simp
  have h2 := hli _ 0 v s1 h1
  have h3 : (durFrac s1).rem.length ≤ s1.length := by
    unfold durFrac
    split
    · exact Nat.le_succ_of_le (hlf _ _ _ _)
    · simp
  have h4 : ((durFrac s1).rem.takeWhile durUnitChar).length ≤ (durFrac s1).rem.length := by
    generalize (durFrac s1).rem = l
    induction l with
    | nil => simp [List.takeWhile]
    | cons c rest ih =>
      simp only [List.takeWhile]
      split
      · simpa using Nat.succ_le_succ ih
      · simp
  have h5 : 1 ≤ ((durFrac s1).rem.takeWhile durUnitChar).length := List.length_pos.mpr hu
  simp only [List.length_drop, List.length_cons] at *
  omega

/-- Go time.ParseDuration: optional sign, the special case "0", then the
component loop; the result is int64 nanoseconds. -/
def parseDuration (s : String) : Except Err Int :=
  let cs := s.data
  let sd := match cs with
    | '-' :: r => (true, r)
    | '+' :: r => (false, r)
    | _ => (false, cs)
  if sd.2 = ['0'] then .ok 0
  else if sd.2 = [] then .error (.timeInvalidDuration s)
  else
    match durLoop s sd.2 0 with
    | .error e => .error e
    | .ok d => .ok (if sd.1 then -(d : Int) else (d : Int))

/-! ### Data model of the package core

A struct field's dynamic value, as seen through the type switches of
`setDefault` and `register` in src/unnamed/part_002.  A field whose address
implements flag.Value is `customV`: its state is rendered as a String and its
Set method is an arbitrary function from state and input to a new state or an
error message.  `intV` models Go int (64-bit on the targeted platforms) and
`durationV` models time.Duration (int64 nanoseconds).  `otherV` carries the
`%T`-rendered declared type of a field supported by neither switch. -/
inductive Val where
  | boolV (b : Bool)
  | durationV (n : Int)
  | floatV (f : FloatRep)
  | intV (n : Int)
  | int64V (n : Int)
  | stringV (s : String)
  | uintV (n : Nat)
  | uint64V (n : Nat)
  | customV (state : String) (set : String → String → Except String String)
  | otherV (typeName : String)

/-- True unless the value's type is supported by neither register switch. -/
def Val.supported : Val → Bool
  | .otherV _ => false
  | _ => true

/-- One field of the user's struct as reflect presents it: the Go field
name, the PkgPath (empty exactly for exported fields), the raw `flag` and
`flag-default` tag values (`none` when the tag is absent; reflect's Tag.Get
returns the empty string in that case) and the field's current value. -/
structure StructField where
  fname : String
  pkgPath : String
  flagTag : Option String
  defaultTag : Option String
  value : Val

/-- reflect.StructTag.Get: the empty string when the tag is absent. -/
def tagGet (t : Option String) : String := t.getD ""

/-- flagInfo of src/unnamed/part_002.  The Go struct stores a pointer to the
field (`field interface{}`); here the pointer is the field's index into the
record, through which all reads and writes go. -/
structure FlagInfo where
  idx : Nat
  name : String
  help : String
  dval : Option String
deriving DecidableEq

/-- One installed flag of the external flag.FlagSet: name, usage text and
the value of its target at registration time (the flag's baseline). -/
structure Flag where
  name : String
  help : String
  value : Val

/-- The external flag.FlagSet, reduced to its list of installed flags in
installation order. -/
structure FlagSet where
  flags : List Flag

/-- The empty flag set (flag.NewFlagSet). -/
def emptyFS : FlagSet := ⟨[]⟩

/-- The value handed to Register, as reflect classifies it: a pointer to a
struct (carrying the fields), a pointer to anything else — including a nil
pointer, whose reflect.Indirect has Kind Invalid — or a non-pointer.  The
strings record the kind for documentation only. -/
inductive GoValue where
  | ptrToStruct (fields : List StructField)
  | ptrToNonStruct (kind : String)
  | nonPtr (kind : String)

/-- Outcome of a registration call: normal return with the final record and
flag set, an error return, or a Go panic.  The record and flag-set state at
the moment of the outcome is carried in every case. -/
inductive RegResult where
  | ok (rec : List StructField) (fs : FlagSet)
  | err (e : Err) (rec : List StructField) (fs : FlagSet)
  | panicked (msg : String) (rec : List StructField) (fs : FlagSet)

/-- The outcome kind together with its error or panic payload. -/
inductive Status where
  | ok
  | err (e : Err)
  | panicked (msg : String)
deriving DecidableEq

def RegResult.status : RegResult → Status
  | .ok _ _ => .ok
  | .err e _ _ => .err e
  | .panicked m _ _ => .panicked m

def RegResult.recOut : RegResult → List StructField
  | .ok r _ => r
  | .err _ r _ => r
  | .panicked _ r _ => r

def RegResult.fsOut : RegResult → FlagSet
  | .ok _ f => f
  | .err _ _ f => f
  | .panicked _ _ f => f

def RegResult.isOk : RegResult → Bool
  | .ok _ _ => true
  | _ => false

def RegResult.isErr : RegResult → Bool
  | .err _ _ _ => true
  | _ => false

def RegResult.isPanicked : RegResult → Bool
  | .panicked _ _ _ => true
  | _ => false

def RegResult.errOf : RegResult → Option Err
  | .err e _ _ => some e
  | _ => none

/-- Dereference the field pointer: read the value stored at the index.  The
pipeline only creates in-range indices (the pointer cannot dangle); the
out-of-range branch returns a placeholder. -/
def readField (rec : List StructField) (i : Nat) : Val :=
  match rec[i]? with
  | some sf => sf.value
  | none => .otherV "<dangling>"

/-- Write through the field pointer: store a new value at the index. -/
def writeField (rec : List StructField) (i : Nat) (v : Val) : List StructField :=
  match rec[i]? with
  | some sf => rec.set i { sf with value := v }
  | none => rec

/-! ### Field scanner (newFlagInfo / parseFlags of src/unnamed/part_002) -/

/-- strings.SplitN(tag, sep, 2) when the separator occurs: the text before
the first separator and the text after it; `none` when it does not occur. -/
def splitFirst (sep : Char) : List Char → Option (List Char × List Char)
  | [] => none
  | c :: cs =>
    if c = sep then some ([], cs)
    else
      match splitFirst sep cs with
      | none => none
      | some (a, b) => some (c :: a, b)

/-- newFlagInfo of src/unnamed/part_002: skip the field when the flag tag is
empty or the field is unexported; otherwise name and help are the whole tag,
overridden by the split around the first comma when one occurs; a non-empty
flag-default tag is recorded as the default text.  (newFlagInfo of
src/flagstruct.go computes the same name and help with strings.Index.) -/
def newFlagInfo (sf : StructField) (i : Nat) : Option FlagInfo :=
  let tag := tagGet sf.flagTag
  if tag = "" ∨ sf.pkgPath ≠ "" then none
  else
    let nh := match splitFirst ',' tag.data with
      | some (a, b) => (String.mk a, String.mk b)
      | none => (tag, tag)
    let dval := tagGet sf.defaultTag
    some { idx := i, name := nh.1, help := nh.2,
           dval := if dval ≠ "" then some dval else none }

/-- The field loop of parseFlags: scan fields in declaration order starting
at index `i`, keeping the flagInfo of each eligible field. -/
def scanFieldsFrom : Nat → List StructField → List FlagInfo
  | _, [] => []
  | i, sf :: rest =>
    match newFlagInfo sf i with
    | some fi => fi :: scanFieldsFrom (i + 1) rest
    | none => scanFieldsFrom (i + 1) rest

/-- All flagInfos of a record, in field declaration order. -/
def scanFields (fields : List StructField) : List FlagInfo := scanFieldsFrom 0 fields

/-- parseFlags of src/unnamed/part_002: reject non-pointers, then
non-structs, then scan the fields. -/
def parseFlags : GoValue → Except Err (List FlagInfo)
  | .nonPtr _ => .error .notPointer
  | .ptrToNonStruct _ => .error .notStruct
  | .ptrToStruct fields => .ok (scanFields fields)

/-- The record referenced by a registration argument (empty when the
argument does not reference a record). -/
def recordOf : GoValue → List StructField
  | .ptrToStruct fields => fields
  | _ => []

/-! ### Registrar (setDefault / register / RegisterTag) -/

/-- Result of setDefault: the possibly-updated record, an error, or the
panic of its default branch. -/
inductive DefResult where
  | ok (rec : List StructField)
  | err (e : Err)
  | panicked (msg : String)

/-- setDefault of src/unnamed/part_002: no default text means no work;
otherwise dispatch on the field's dynamic type, parse the text in the
field's kind, and overwrite the field through its pointer.  A custom
flag.Value target has the text passed to its Set method.  Parse and Set
errors are returned as-is.  A target of any other type hits
`panic("invalid target for default")`. -/
def setDefault (rec : List StructField) (fi : FlagInfo) : DefResult :=
  match fi.dval with
  | none => .ok rec
  | some dval =>
    match readField rec fi.idx with
    | .customV st set =>
      match set st dval with
      | .ok st' => .ok (writeField rec fi.idx (.customV st' set))
      | .error msg => .err (.customSetError msg)
    | .boolV _ =>
      match parseBool dval with
      | .ok b => .ok (writeField rec fi.idx (.boolV b))
      | .error e => .err e
    | .durationV _ =>
      match parseDuration dval with
      | .ok d => .ok (writeField rec fi.idx (.durationV d))
      | .error e => .err e
    | .floatV _ =>
      match parseFloat64 dval with
      | .ok f => .ok (writeField rec fi.idx (.floatV f))
      | .error e => .err e
    | .intV _ =>
      match parseInt dval with
      | .ok z => .ok (writeField rec fi.idx (.intV z))
      | .error e => .err e
    | .int64V _ =>
      match parseInt dval with
      | .ok z => .ok (writeField rec fi.idx (.int64V z))
      | .error e => .err e
    | .stringV _ => .ok (writeField rec fi.idx (.stringV dval))
    | .uintV _ =>
      match parseUint dval with
      | .ok z => .ok (writeField rec fi.idx (.uintV z))
      | .error e => .err e
    | .uint64V _ =>
      match parseUint dval with
      | .ok z => .ok (writeField rec fi.idx (.uint64V z))
      | .error e => .err e
    | .otherV _ => .panicked "invalid target for default"

/-- flag.FlagSet.Var of the Go standard library, which every typed
registration primitive (BoolVar, IntVar, ...) funnels into: panic when the
name is already taken, otherwise append the flag.  The error value is the
panic message. -/
def fsVar (fs : FlagSet) (name help : String) (v : Val) : Except String FlagSet :=
  if fs.flags.any (fun g => g.name == name) then .error ("flag redefined: " ++ name)
  else .ok ⟨fs.flags ++ [⟨name, help, v⟩]⟩

/-- register of src/unnamed/part_002: apply the default first, then dispatch
on the field's dynamic type.  Every supported type (flag.Value and the eight
built-ins) installs the flag under the prefixed name with the field's
current — post-default — value as baseline; any other type returns the
`type %T does not implement flag.Value` error. -/
def register (pfx : String) (rec : List StructField) (fs : FlagSet) (fi : FlagInfo) :
    RegResult :=
  match setDefault rec fi with
  | .err e => .err e rec fs
  | .panicked m => .panicked m rec fs
  | .ok rec' =>
    match readField rec' fi.idx with
    | .otherV tn => .err (.unsupportedType tn) rec' fs
    | v =>
      match fsVar fs (pfx ++ fi.name) fi.help v with
      | .ok fs' => .ok rec' fs'
      | .error m => .panicked m rec' fs

/-- The registration loop of RegisterTag: register each flagInfo in order,
stopping at the first error; a panic propagates. -/
def registerLoop (pfx : String) : List FlagInfo → List StructField → FlagSet → RegResult
  | [], rec, fs => .ok rec fs
  | fi :: rest, rec, fs =>
    match register pfx rec fs fi with
    | .ok rec' fs' => registerLoop pfx rest rec' fs'
    | .err e r f => .err e r f
    | .panicked m r f => .panicked m r f

/-- RegisterTag of src/unnamed/part_002: parse the flags, fail when there
are none, then run the registration loop with the tag as name prefix. -/
def RegisterTag (tag : String) (v : GoValue) (fs : FlagSet) : RegResult :=
  match parseFlags v with
  | .error e => .err e (recordOf v) fs
  | .ok infos =>
    if infos.isEmpty then .err .noFlaggable (recordOf v) fs
    else registerLoop tag infos (recordOf v) fs

/-- Register of src/unnamed/part_002: RegisterTag with the empty prefix. -/
def Register (v : GoValue) (fs : FlagSet) : RegResult := RegisterTag "" v fs

/-! ### Definitions supporting the claim statements -/

/-- The value that default text denotes in a field's kind, following the
dispatch of setDefault: the respective parser for the built-in kinds, the
text itself for strings, and the Set method for a custom flag.Value;
`none` when parsing fails or the kind supports no default. -/
def parsesTo : Val → String → Option Val
  | .boolV _, d => (parseBool d).toOption.map .boolV
  | .durationV _, d => (parseDuration d).toOption.map .durationV
  | .floatV _, d => (parseFloat64 d).toOption.map .floatV
  | .intV _, d => (parseInt d).toOption.map .intV
  | .int64V _, d => (parseInt d).toOption.map .int64V
  | .stringV _, d => some (.stringV d)
  | .uintV _, d => (parseUint d).toOption.map .uintV
  | .uint64V _, d => (parseUint d).toOption.map .uint64V
  | .customV st set, d => (set st d).toOption.map (fun st' => .customV st' set)
  | .otherV _, _ => none

/-- The error value carries the given string verbatim: as the `Num` field
of a strconv.NumError or as the quoted duration text of a time error.  The
errors of the modelled parsers always carry their full input this way. -/
def errCarries : Err → String → Prop
  | .numError _ num _, s => num = s
  | .timeInvalidDuration o, s => o = s
  | .timeMissingUnit o, s => o = s
  | .timeUnknownUnit _ o, s => o = s
  | _, _ => False

/-- Index translation for a record with one extra field inserted at
position `p`: indices at or past `p` move up by one. -/
def shiftIdx (p i : Nat) : Nat := if p ≤ i then i + 1 else i

/-- A flagInfo whose field pointer is translated across an insertion. -/
def shiftInfo (p : Nat) (fi : FlagInfo) : FlagInfo :=
  ⟨shiftIdx p fi.idx, fi.name, fi.help, fi.dval⟩

/-- The record `l` is the record `r` with the field `sf` inserted at
position `p` (and the fields of `r` otherwise unchanged, in order). -/
def Ins (sf : StructField) (p : Nat) (r l : List StructField) : Prop :=
  ∃ g₁ g₂, r = g₁ ++ g₂ ∧ l = g₁ ++ sf :: g₂ ∧ g₁.length = p

/-- Simulation relation on setDefault results across an insertion: equal
errors, equal panics, and Ins-related records on success. -/
def DefSim (sf : StructField) (p : Nat) : DefResult → DefResult → Prop
  | .ok r, .ok l => Ins sf p r l
  | .err e, .err e2 => e = e2
  | .panicked m, .panicked m2 => m = m2
  | _, _ => False

/-- Simulation relation on registration outcomes across an insertion: same
status, same flag set, Ins-related records. -/
def RegSim (sf : StructField) (p : Nat) : RegResult → RegResult → Prop
  | .ok r f, .ok r2 f2 => Ins sf p r r2 ∧ f = f2
  | .err e r f, .err e2 r2 f2 => e = e2 ∧ Ins sf p r r2 ∧ f = f2
  | .panicked m r f, .panicked m2 r2 f2 => m = m2 ∧ Ins sf p r r2 ∧ f = f2
  | _, _ => False

/-- A field of an unsupported type carrying a default declaration (used by
the claim about unsupported types). -/
def c2Field : StructField :=
  { fname := "X", pkgPath := "", flagTag := some "x,help",
    defaultTag := some "1", value := .otherV "*main.T" }

/-- An int field named alpha whose default text is not numeric. -/
def c3FieldA : StructField :=
  { fname := "A", pkgPath := "", flagTag := some "alpha,h",
    defaultTag := some "abc", value := .intV 0 }

/-- An int field named beta whose default text is not numeric. -/
def c3FieldB : StructField :=
  { fname := "B", pkgPath := "", flagTag := some "beta,h",
    defaultTag := some "abc", value := .intV 0 }

/-- A well-formed string field registered before a failing one. -/
def c4FieldA : StructField :=
  { fname := "A", pkgPath := "", flagTag := some "a,ha",
    defaultTag := none, value := .stringV "x" }

/-- An int field with a malformed default, registered second. -/
def c4FieldB : StructField :=
  { fname := "B", pkgPath := "", flagTag := some "b,hb",
    defaultTag := some "abc", value := .intV 2 }

/-- An int field with current value 17 and default declaration "42". -/
def c1Field : StructField :=
  { fname := "Count", pkgPath := "", flagTag := some "count,help",
    defaultTag := some "42", value := .intV 17 }

/-- An int field with current value 17 and no default declaration. -/
def c1FieldN : StructField :=
  { fname := "Count", pkgPath := "", flagTag := some "count2,help2",
    defaultTag := none, value := .intV 17 }

/-- A string field whose flag tag has a name and help text. -/
def c5Field : StructField :=
  { fname := "X", pkgPath := "", flagTag := some "x,some help",
    defaultTag := none, value := .stringV "" }

/-- A string field whose flag tag has no separator. -/
def c5FieldNoSep : StructField :=
  { fname := "X", pkgPath := "", flagTag := some "x",
    defaultTag := none, value := .stringV "" }

/-- Two fields declaring the same flag name. -/
def c6Fields : List StructField :=
  [{ fname := "X", pkgPath := "", flagTag := some "x,h1",
     defaultTag := none, value := .stringV "1" },
   { fname := "Y", pkgPath := "", flagTag := some "x,h2",
     defaultTag := none, value := .stringV "2" }]

/-- An unexported field (non-empty PkgPath). -/
def c8Field : StructField :=
  { fname := "z", pkgPath := "main", flagTag := some "r,rune",
    defaultTag := none, value := .intV 0 }

/-- An exported field without a flag tag. -/
def c9Field : StructField :=
  { fname := "Other", pkgPath := "", flagTag := none,
    defaultTag := none, value := .stringV "blub" }

/-- A string field with a present but empty flag-default tag. -/
def c10Field : StructField :=
  { fname := "S", pkgPath := "", flagTag := some "s,h",
    defaultTag := some "", value := .stringV "x" }

/-! ### Helper lemmas -/

theorem splitFirst_none_iff (sep : Char) :
    ∀ l : List Char, splitFirst sep l = none ↔ sep ∉ l := by
  intro l
  induction l with
  | nil => simp [splitFirst]
  | cons c cs ih =>
    simp only [splitFirst, List.mem_cons]
    by_cases hc : c = sep
    · simp [hc]
    · rw [if_neg hc]
      cases h : splitFirst sep cs with
      | none =>
        have hns := ih.mp h
        simp only [h]
        constructor
        · intro _ hmem
          rcases hmem with h1 | h2
          · exact hc h1.symm
          · exact hns h2
        · intro _; trivial
      | some ab =>
        simp only [h]
        constructor
        · intro hfalse; cases hfalse
        · intro hnot
          exfalso
          have hmem : sep ∈ cs := by
            by_contra hsep
            rw [ih.mpr hsep] at h
            cases h
          exact hnot (Or.inr hmem)

theorem splitFirst_some (sep : Char) :
    ∀ (l a b : List Char), splitFirst sep l = some (a, b) →
      l = a ++ sep :: b ∧ sep ∉ a := by
  intro l
  induction l with
  | nil => intro a b h; cases h
  | cons c cs ih =>
    intro a b h
    simp only [splitFirst] at h
    by_cases hc : c = sep
    · rw [if_pos hc] at h
      cases h
      simp [hc]
    · rw [if_neg hc] at h
      cases h2 : splitFirst sep cs with
      | none => rw [h2] at h; cases h
      | some ab =>
        rw [h2] at h
        obtain ⟨a', b'⟩ := ab
        simp only [Option.some.injEq, Prod.mk.injEq] at h
        obtain ⟨ha, hb⟩ := h
        obtain ⟨hl, hnot⟩ := ih a' b' h2
        subst ha hb
        constructor
        · simp [hl]
        · simp only [List.mem_cons]
          intro hmem
          rcases hmem with h1 | h2
          · exact hc h1.symm
          · exact hnot h2

theorem splitFirst_decomp (sep : Char) :
    ∀ (a b : List Char), sep ∉ a → splitFirst sep (a ++ sep :: b) = some (a, b) := by
  intro a
  induction a with
  | nil => intro b _; simp [splitFirst]
  | cons c cs ih =>
    intro b hnot
    simp only [List.mem_cons, not_or] at hnot
    have hstep : (c :: cs) ++ sep :: b = c :: (cs ++ sep :: b) := rfl
    rw [hstep]
    simp only [splitFirst]
    rw [if_neg (fun h => hnot.1 h.symm), ih b hnot.2]

theorem readField_writeField (rec : List StructField) (i : Nat) (v : Val)
    (h : i < rec.length) : readField (writeField rec i v) i = v := by
  unfold writeField
  rw [List.getElem?_eq_getElem h]
  unfold readField
  rw [List.getElem?_set_eq_of_lt _ h]

theorem fsVar_fresh (fs : FlagSet) (n hlp : String) (v : Val)
    (hf : ∀ g ∈ fs.flags, g.name ≠ n) :
    fsVar fs n hlp v = .ok ⟨fs.flags ++ [⟨n, hlp, v⟩]⟩ := by
  cases hany : fs.flags.any (fun g => g.name == n) with
  | false => simp [fsVar, hany]
  | true =>
    exfalso
    obtain ⟨g, hg, hbeq⟩ := List.any_eq_true.mp hany
    exact hf g hg (by simpa using hbeq)

theorem exceptMapSome {ε α : Type} (x : Except ε α) (f : α → Val) (v' : Val)
    (h : x.toOption.map f = some v') : ∃ a, x = .ok a ∧ v' = f a := by
  cases x with
  | error e => simp [Except.toOption] at h
  | ok a =>
    simp [Except.toOption] at h
    exact ⟨a, rfl, h.symm⟩

/-- When the default text denotes a value in the field's kind, setDefault
overwrites the field in place with exactly that value. -/
theorem setDefault_parsesTo (rec : List StructField) (fi : FlagInfo) (d : String) (v' : Val)
    (hd : fi.dval = some d) (hp : parsesTo (readField rec fi.idx) d = some v') :
    setDefault rec fi = .ok (writeField rec fi.idx v') ∧ v'.supported = true := by
  simp only [setDefault, hd]
  cases hv : readField rec fi.idx with
  | boolV b =>
    rw [hv] at hp
    simp only [parsesTo] at hp
    obtain ⟨a, hpa, rfl⟩ := exceptMapSome _ _ _ hp
    refine ⟨?_, rfl⟩
    rw [hpa]
  | durationV n =>
    rw [hv] at hp
    simp only [parsesTo] at hp
    obtain ⟨a, hpa, rfl⟩ := exceptMapSome _ _ _ hp
    refine ⟨?_, rfl⟩
    rw [hpa]
  | floatV f =>
    rw [hv] at hp
    simp only [parsesTo] at hp
    obtain ⟨a, hpa, rfl⟩ := exceptMapSome _ _ _ hp
    refine ⟨?_, rfl⟩
    rw [hpa]
  | intV n =>
    rw [hv] at hp
    simp only [parsesTo] at hp
    obtain ⟨a, hpa, rfl⟩ := exceptMapSome _ _ _ hp
    refine ⟨?_, rfl⟩
    rw [hpa]
  | int64V n =>
    rw [hv] at hp
    simp only [parsesTo] at hp
    obtain ⟨a, hpa, rfl⟩ := exceptMapSome _ _ _ hp
    refine ⟨?_, rfl⟩
    rw [hpa]
  | stringV s0 =>
    rw [hv] at hp
    simp only [parsesTo, Option.some.injEq] at hp
    subst hp
    exact ⟨rfl, rfl⟩
  | uintV n =>
    rw [hv] at hp
    simp only [parsesTo] at hp
    obtain ⟨a, hpa, rfl⟩ := exceptMapSome _ _ _ hp
    refine ⟨?_, rfl⟩
    rw [hpa]
  | uint64V n =>
    rw [hv] at hp
    simp only [parsesTo] at hp
    obtain ⟨a, hpa, rfl⟩ := exceptMapSome _ _ _ hp
    refine ⟨?_, rfl⟩
    rw [hpa]
  | customV st set =>
    rw [hv] at hp
    simp only [parsesTo] at hp
    obtain ⟨a, hpa, rfl⟩ := exceptMapSome _ _ _ hp
    refine ⟨?_, rfl⟩
    show (match set st d with
      | Except.ok st' => DefResult.ok (writeField rec fi.idx (Val.customV st' set))
      | Except.error msg => DefResult.err (Err.customSetError msg)) =
      DefResult.ok (writeField rec fi.idx (Val.customV a set))
    rw [hpa]
  | otherV tn =>
    rw [hv] at hp
    simp [parsesTo] at hp

/-- After a successful setDefault, register reads the field's current value
and installs it as the flag's baseline under the prefixed name. -/
theorem register_ok_of (pfx : String) (rec : List StructField) (fs : FlagSet)
    (fi : FlagInfo) (rec' : List StructField) (v' : Val)
    (hsup : v'.supported = true) (hsd : setDefault rec fi = .ok rec')
    (hrv : readField rec' fi.idx = v')
    (hfresh : ∀ g ∈ fs.flags, g.name ≠ pfx ++ fi.name) :
    register pfx rec fs fi =
      .ok rec' ⟨fs.flags ++ [⟨pfx ++ fi.name, fi.help, v'⟩]⟩ := by
  simp only [register, hsd]
  cases v' with
  | otherV tn => simp [Val.supported] at hsup
  | boolV b => simp only [hrv, fsVar_fresh _ _ _ _ hfresh]
  | durationV n => simp only [hrv, fsVar_fresh _ _ _ _ hfresh]
  | floatV f => simp only [hrv, fsVar_fresh _ _ _ _ hfresh]
  | intV n => simp only [hrv, fsVar_fresh _ _ _ _ hfresh]
  | int64V n => simp only [hrv, fsVar_fresh _ _ _ _ hfresh]
  | stringV s0 => simp only [hrv, fsVar_fresh _ _ _ _ hfresh]
  | uintV n => simp only [hrv, fsVar_fresh _ _ _ _ hfresh]
  | uint64V n => simp only [hrv, fsVar_fresh _ _ _ _ hfresh]
  | customV st set => simp only [hrv, fsVar_fresh _ _ _ _ hfresh]

/-! ### Claims -/

/-- Claim C7: a non-pointer argument fails with the distinct NotAReference
error ("value must be a pointer"), a pointer whose referent is not a struct
fails with the distinct NotARecord error ("value must be a struct"), and in
both cases the flag set is returned unchanged — no flag-set mutation
happened. -/
theorem spec_c7 (tag k₁ k₂ : String) (fs : FlagSet) :
    RegisterTag tag (.nonPtr k₁) fs = .err .notPointer [] fs ∧
    RegisterTag tag (.ptrToNonStruct k₂) fs = .err .notStruct [] fs ∧
    Err.notPointer ≠ Err.notStruct :=
  ⟨rfl, rfl, by decide⟩

/-- Claim C8: a pointer-to-struct record whose scan yields no eligible
field fails with the NoFlaggableFields error ("struct contains no flaggable
fields"), with record and flag set unchanged. -/
theorem spec_c8 (tag : String) (fields : List StructField) (fs : FlagSet)
    (h : scanFields fields = []) :
    RegisterTag tag (.ptrToStruct fields) fs = .err .noFlaggable fields fs := by
  simp [RegisterTag, parseFlags, recordOf, h]

/-- Witness for C8: a struct whose only field is unexported scans to no
descriptors and registration fails with NoFlaggableFields. -/
theorem spec_c8_witness :
    scanFields [c8Field] = [] ∧
    RegisterTag "" (.ptrToStruct [c8Field]) emptyFS = .err .noFlaggable [c8Field] emptyFS :=
  ⟨rfl, spec_c8 "" [c8Field] emptyFS rfl⟩

/-- Claim C5: for a field accepted by newFlagInfo, if the flag tag contains
no comma then both the flag name and the help text are the whole tag; if it
decomposes around a first comma (no comma before it), the name is exactly
the text before that comma and the help is exactly the text after it. -/
theorem spec_c5 (sf : StructField) (i : Nat) (fi : FlagInfo)
    (h : newFlagInfo sf i = some fi) :
    (',' ∉ (tagGet sf.flagTag).data →
       fi.name = tagGet sf.flagTag ∧ fi.help = tagGet sf.flagTag) ∧
    (∀ a b, (tagGet sf.flagTag).data = a ++ ',' :: b → ',' ∉ a →
       fi.name = String.mk a ∧ fi.help = String.mk b) := by
  simp only [newFlagInfo] at h
  split at h
  · cases h
  · obtain rfl := Option.some.inj h
    constructor
    · intro hnot
      rw [(splitFirst_none_iff ',' (tagGet sf.flagTag).data).mpr hnot]
      exact ⟨rfl, rfl⟩
    · intro a b hdec hnot
      rw [hdec, splitFirst_decomp ',' a b hnot]
      exact ⟨rfl, rfl⟩

/-- Witness for C5: the tag "x,some help" yields name "x" and help
"some help"; the tag "x" alone yields name "x" and help "x". -/
theorem spec_c5_witness :
    (∃ fi, newFlagInfo c5Field 0 = some fi ∧ fi.name = "x" ∧ fi.help = "some help") ∧
    (∃ fi, newFlagInfo c5FieldNoSep 0 = some fi ∧ fi.name = "x" ∧ fi.help = "x") := by
  constructor
  · refine ⟨{ idx := 0, name := "x", help := "some help", dval := none }, rfl, ?_⟩
    have h := spec_c5 c5Field 0 { idx := 0, name := "x", help := "some help", dval := none } rfl
    exact h.2 "x".data "some help".data rfl (by decide)
  · refine ⟨{ idx := 0, name := "x", help := "x", dval := none }, rfl, ?_⟩
    have h := spec_c5 c5FieldNoSep 0 { idx := 0, name := "x", help := "x", dval := none } rfl
    exact h.1 (by decide)

/-- Claim C10: a present-but-empty flag-default tag is treated exactly as an
absent one — the scanner records no default text, setDefault does nothing so
the field keeps its current value as baseline, and no descriptor produced by
the scanner can ever carry an empty default text. -/
theorem spec_c10 (sf : StructField) (i : Nat) (h : sf.defaultTag = some "") :
    newFlagInfo sf i = newFlagInfo { sf with defaultTag := none } i ∧
    (∀ fi, newFlagInfo sf i = some fi →
       fi.dval = none ∧ ∀ rec, setDefault rec fi = DefResult.ok rec) ∧
    (∀ (sf' : StructField) (j : Nat) (fi : FlagInfo),
       newFlagInfo sf' j = some fi → fi.dval ≠ some "") := by
  refine ⟨?_, ?_, ?_⟩
  · simp [newFlagInfo, tagGet, h]
  · intro fi hfi
    simp only [newFlagInfo, h, tagGet, Option.getD] at hfi
    split at hfi
    · cases hfi
    · obtain rfl := Option.some.inj hfi
      exact ⟨rfl, fun rec => rfl⟩
  · intro sf' j fi hfi
    simp only [newFlagInfo] at hfi
    split at hfi
    · cases hfi
    · obtain rfl := Option.some.inj hfi
      intro hcontra
      have hdv : (if tagGet sf'.defaultTag ≠ "" then some (tagGet sf'.defaultTag) else none)
          = some "" := hcontra
      split at hdv
      · rename_i hne
        exact hne (Option.some.inj hdv)
      · cases hdv

/-- Witness for C10: a concrete field with defaultTag present but empty is
scanned exactly like the same field without the tag, records no default
text, and leaves any record unchanged under setDefault. -/
theorem spec_c10_witness :
    newFlagInfo c10Field 0 = newFlagInfo { c10Field with defaultTag := none } 0 ∧
    ∀ fi, newFlagInfo c10Field 0 = some fi →
      fi.dval = none ∧ ∀ rec, setDefault rec fi = DefResult.ok rec :=
  ⟨(spec_c10 c10Field 0 rfl).1, (spec_c10 c10Field 0 rfl).2.1⟩

/-- Counterexample to C2 as stated: an eligible field of an unsupported
type that also carries a default declaration does not make registration
return an error — the call panics ("invalid target for default"). -/
theorem spec_c2_counterexample :
    (RegisterTag "" (.ptrToStruct [c2Field]) emptyFS).isErr = false ∧
    (RegisterTag "" (.ptrToStruct [c2Field]) emptyFS).status
      = .panicked "invalid target for default" :=
  ⟨rfl, rfl⟩

/-- Claim C2 as amended: for an eligible field whose value is of an
unsupported type, registration of that field returns the UnsupportedType
error naming the field's declared type when the field has no default
declaration; when a default declaration is present, the default-application
step panics ("invalid target for default") instead of returning an error. -/
theorem spec_c2 (pfx : String) (rec : List StructField) (fs : FlagSet) (fi : FlagInfo)
    (tn : String) (hval : readField rec fi.idx = .otherV tn) :
    (fi.dval = none → register pfx rec fs fi = .err (.unsupportedType tn) rec fs) ∧
    (∀ d, fi.dval = some d →
       register pfx rec fs fi = .panicked "invalid target for default" rec fs) := by
  constructor
  · intro hd
    simp [register, setDefault, hd, hval]
  · intro d hd
    simp [register, setDefault, hd, hval]

/-- Witness for the amended C2 at a concrete unsupported field, with and
without a default declaration. -/
theorem spec_c2_witness :
    register "" [{ c2Field with defaultTag := none }] emptyFS
        { idx := 0, name := "x", help := "help", dval := none }
      = .err (.unsupportedType "*main.T") [{ c2Field with defaultTag := none }] emptyFS ∧
    register "" [c2Field] emptyFS { idx := 0, name := "x", help := "help", dval := some "1" }
      = .panicked "invalid target for default" [c2Field] emptyFS := by
  constructor
  · exact (spec_c2 "" [{ c2Field with defaultTag := none }] emptyFS
      { idx := 0, name := "x", help := "help", dval := none } "*main.T" rfl).1 rfl
  · exact (spec_c2 "" [c2Field] emptyFS
      { idx := 0, name := "x", help := "help", dval := some "1" } "*main.T" rfl).2 "1" rfl

/-- Every error of parseInt is a strconv.NumError built from the function
name "ParseInt" and the full original input string. -/
theorem parseInt_error_shape (s : String) (e : Err) (h : parseInt s = .error e) :
    ∃ r, e = .numError "ParseInt" s r := by
  have core : ∀ (neg : Bool) (ds : List Char), parseIntCore neg s ds = .error e →
      ∃ r, e = .numError "ParseInt" s r := by
    intro neg ds hc
    simp only [parseIntCore] at hc
    split at hc
    · injection hc with h'
      exact ⟨_, h'.symm⟩
    · split at hc
      · injection hc with h'
        exact ⟨_, h'.symm⟩
      · split at hc
        · injection hc with h'
          exact ⟨_, h'.symm⟩
        · cases hc
  simp only [parseInt] at h
  split at h
  · injection h with h'
    exact ⟨_, h'.symm⟩
  · split at h
    · exact core _ _ h
    · split at h
      · exact core _ _ h
      · exact core _ _ h

/-- Counterexample to C3 as stated: two records whose only difference is the
flag name (alpha versus beta), both with the unparseable int default "abc",
fail with the **identical** error value, so the returned error cannot
identify the field's flag name; it is the bare strconv error. -/
theorem spec_c3_counterexample :
    (RegisterTag "" (.ptrToStruct [c3FieldA]) emptyFS).errOf
      = some (.numError "ParseInt" "abc" "invalid syntax") ∧
    (RegisterTag "" (.ptrToStruct [c3FieldB]) emptyFS).errOf
      = some (.numError "ParseInt" "abc" "invalid syntax") ∧
    (scanFields [c3FieldA]).map FlagInfo.name = ["alpha"] ∧
    (scanFields [c3FieldB]).map FlagInfo.name = ["beta"] :=
  ⟨rfl, rfl, rfl, rfl⟩

theorem parseBool_error_shape (s : String) (e : Err) (h : parseBool s = .error e) :
    errCarries e s := by
  simp only [parseBool] at h
  split at h
  · cases h
  · split at h
    · cases h
    · injection h with h'
      subst h'
      exact rfl

theorem parseUint_error_shape (s : String) (e : Err) (h : parseUint s = .error e) :
    errCarries e s := by
  simp only [parseUint] at h
  split at h
  · injection h with h'
    subst h'
    exact rfl
  · cases h

theorem parseFloat64_error_shape (s : String) (e : Err) (h : parseFloat64 s = .error e) :
    errCarries e s := by
  simp only [parseFloat64] at h
  split at h
  · cases h
  · split at h
    · split at h
      · split at h
        · injection h with h'
          subst h'
          exact rfl
        · cases h
      · injection h with h'
        subst h'
        exact rfl
    · injection h with h'
      subst h'
      exact rfl

theorem durLoop_error_shape (orig : String) :
    ∀ (cs : List Char) (d : Nat), ∀ e, durLoop orig cs d = .error e → errCarries e orig := by
  intro cs d
  induction cs, d using durLoop.induct orig with
  | case1 d =>
    intro e h
    rw [durLoop] at h
    cases h
  | case2 d c rest hcond =>
    intro e h
    rw [durLoop] at h
    rw [if_pos hcond] at h
    injection h with h'
    subst h'
    exact rfl
  | case3 d c rest hnn hli =>
    intro e h
    rw [durLoop] at h
    rw [if_neg hnn] at h
    split at h
    · injection h with h'
      subst h'
      exact rfl
    · rename_i v1 s1' h1
      rw [hli] at h1
      cases h1
  | case4 d c rest hnn v s1 hli hpp =>
    intro e h
    rw [durLoop] at h
    rw [if_neg hnn] at h
    split at h
    · rename_i h1
      rw [hli] at h1
      cases h1
    · rename_i v1 s1' h1
      rw [hli] at h1
      injection h1 with h2
      injection h2 with h3 h4
      subst h3
      subst h4
      rw [if_pos hpp] at h
      injection h with h'
      subst h'
      exact rfl
  | case5 d c rest hnn v s1 hli hpp hu =>
    intro e h
    rw [durLoop] at h
    rw [if_neg hnn] at h
    split at h
    · rename_i h1
      rw [hli] at h1
      cases h1
    · rename_i v1 s1' h1
      rw [hli] at h1
      injection h1 with h2
      injection h2 with h3 h4
      subst h3
      subst h4
      rw [if_neg hpp] at h
      rw [dif_pos hu] at h
      injection h with h'
      subst h'
      exact rfl
  | case6 d c rest hnn v s1 hli hpp hu hul =>
    intro e h
    rw [durLoop] at h
    rw [if_neg hnn] at h
    split at h
    · rename_i h1
      rw [hli] at h1
      cases h1
    · rename_i v1 s1' h1
      rw [hli] at h1
      injection h1 with h2
      injection h2 with h3 h4
      subst h3
      subst h4
      rw [if_neg hpp] at h
      rw [dif_neg hu] at h
      simp only [hul] at h
      injection h with h'
      subst h'
      exact rfl
  | case7 d c rest hnn v s1 hli hpp hu unit hul hov =>
    intro e h
    rw [durLoop] at h
    rw [if_neg hnn] at h
    split at h
    · rename_i h1
      rw [hli] at h1
      cases h1
    · rename_i v1 s1' h1
      rw [hli] at h1
      injection h1 with h2
      injection h2 with h3 h4
      subst h3
      subst h4
      rw [if_neg hpp] at h
      rw [dif_neg hu] at h
      simp only [hul] at h
      rw [if_pos hov] at h
      injection h with h'
      subst h'
      exact rfl
  | case8 d c rest hnn v s1 hli hpp hu unit hul hov hov2 =>
    intro e h
    rw [durLoop] at h
    rw [if_neg hnn] at h
    split at h
    · rename_i h1
      rw [hli] at h1
      cases h1
    · rename_i v1 s1' h1
      rw [hli] at h1
      injection h1 with h2
      injection h2 with h3 h4
      subst h3
      subst h4
      rw [if_neg hpp] at h
      rw [dif_neg hu] at h
      simp only [hul] at h
      rw [if_neg hov] at h
      rw [if_pos hov2] at h
      injection h with h'
      subst h'
      exact rfl
  | case9 d c rest hnn v s1 hli hpp hu unit hul hov hov2 hov3 =>
    intro e h
    rw [durLoop] at h
    rw [if_neg hnn] at h
    split at h
    · rename_i h1
      rw [hli] at h1
      cases h1
    · rename_i v1 s1' h1
      rw [hli] at h1
      injection h1 with h2
      injection h2 with h3 h4
      subst h3
      subst h4
      rw [if_neg hpp] at h
      rw [dif_neg hu] at h
      simp only [hul] at h
      rw [if_neg hov] at h
      rw [if_neg hov2] at h
      rw [if_pos hov3] at h
      injection h with h'
      subst h'
      exact rfl
  | case10 d c rest hnn v s1 hli hpp hu unit hul hov hov2 hov3 ih =>
    intro e h
    rw [durLoop] at h
    rw [if_neg hnn] at h
    split at h
    · rename_i h1
      rw [hli] at h1
      cases h1
    · rename_i v1 s1' h1
      rw [hli] at h1
      injection h1 with h2
      injection h2 with h3 h4
      subst h3
      subst h4
      rw [if_neg hpp] at h
      rw [dif_neg hu] at h
      simp only [hul] at h
      rw [if_neg hov] at h
      rw [if_neg hov2] at h
      rw [if_neg hov3] at h
      exact ih e h

theorem parseDuration_error_shape (s : String) (e : Err) (h : parseDuration s = .error e) :
    errCarries e s := by
  simp only [parseDuration] at h
  split at h
  · cases h
  · split at h
    · injection h with h'
      subst h'
      exact rfl
    · split at h
      · rename_i e' hdur
        injection h with h'
        subst h'
        exact durLoop_error_shape s _ 0 e' hdur
      · cases h

/-- Claim C3 as amended: an eligible field of any built-in kind whose
default text does not parse makes registration of that field fail with the
underlying parse error (strconv or time), leaving record and flag set
unchanged; that error carries the offending default text verbatim — but
not the field's flag name. -/
theorem spec_c3 (pfx : String) (rec : List StructField) (fs : FlagSet) (fi : FlagInfo)
    (d : String) (e : Err) (hd : fi.dval = some d) :
    ((∀ b, readField rec fi.idx = .boolV b → parseBool d = .error e →
        register pfx rec fs fi = .err e rec fs) ∧
     (∀ n, readField rec fi.idx = .durationV n → parseDuration d = .error e →
        register pfx rec fs fi = .err e rec fs) ∧
     (∀ f, readField rec fi.idx = .floatV f → parseFloat64 d = .error e →
        register pfx rec fs fi = .err e rec fs) ∧
     (∀ n, readField rec fi.idx = .intV n → parseInt d = .error e →
        register pfx rec fs fi = .err e rec fs) ∧
     (∀ n, readField rec fi.idx = .int64V n → parseInt d = .error e →
        register pfx rec fs fi = .err e rec fs) ∧
     (∀ n, readField rec fi.idx = .uintV n → parseUint d = .error e →
        register pfx rec fs fi = .err e rec fs) ∧
     (∀ n, readField rec fi.idx = .uint64V n → parseUint d = .error e →
        register pfx rec fs fi = .err e rec fs)) ∧
    ((parseBool d = .error e ∨ parseDuration d = .error e ∨ parseFloat64 d = .error e ∨
      parseInt d = .error e ∨ parseUint d = .error e) → errCarries e d) := by
  constructor
  · refine ⟨?_, ?_, ?_, ?_, ?_, ?_, ?_⟩
    · intro b hval hpe
      simp [register, setDefault, hd, hval, hpe]
    · intro n hval hpe
      simp [register, setDefault, hd, hval, hpe]
    · intro f hval hpe
      simp [register, setDefault, hd, hval, hpe]
    · intro n hval hpe
      simp [register, setDefault, hd, hval, hpe]
    · intro n hval hpe
      simp [register, setDefault, hd, hval, hpe]
    · intro n hval hpe
      simp [register, setDefault, hd, hval, hpe]
    · intro n hval hpe
      simp [register, setDefault, hd, hval, hpe]
  · intro hdisj
    rcases hdisj with hpe | hpe | hpe | hpe | hpe
    · exact parseBool_error_shape d e hpe
    · exact parseDuration_error_shape d e hpe
    · exact parseFloat64_error_shape d e hpe
    · obtain ⟨r, rfl⟩ := parseInt_error_shape d e hpe
      exact rfl
    · exact parseUint_error_shape d e hpe

/-- Witness for the amended C3 at the concrete int field alpha with the
non-numeric default text "abc": registration fails with the strconv error,
which carries "abc". -/
theorem spec_c3_witness :
    register "" [c3FieldA] emptyFS { idx := 0, name := "alpha", help := "h", dval := some "abc" }
      = .err (.numError "ParseInt" "abc" "invalid syntax") [c3FieldA] emptyFS ∧
    errCarries (.numError "ParseInt" "abc" "invalid syntax") "abc" := by
  constructor
  · exact (spec_c3 "" [c3FieldA] emptyFS
      { idx := 0, name := "alpha", help := "h", dval := some "abc" } "abc"
      (.numError "ParseInt" "abc" "invalid syntax") rfl).1.2.2.2.1 0 rfl rfl
  · exact (spec_c3 "" [c3FieldA] emptyFS
      { idx := 0, name := "alpha", help := "h", dval := some "abc" } "abc"
      (.numError "ParseInt" "abc" "invalid syntax") rfl).2
      (Or.inr (Or.inr (Or.inr (Or.inl rfl))))

/-- Claim C1: registering one field with default text that denotes a value
in the field's kind first overwrites the field in place with that parsed
value and installs the flag with the parsed value as its baseline; a field
without default text is installed with its current value, unchanged, as the
baseline.  (The flag-set freshness hypothesis rules out the redefinition
panic of the external flag set.) -/
theorem spec_c1 (pfx : String) (rec : List StructField) (fs : FlagSet) (fi : FlagInfo)
    (hidx : fi.idx < rec.length)
    (hfresh : ∀ g ∈ fs.flags, g.name ≠ pfx ++ fi.name) :
    (∀ d v', fi.dval = some d → parsesTo (readField rec fi.idx) d = some v' →
       register pfx rec fs fi =
         .ok (writeField rec fi.idx v')
           ⟨fs.flags ++ [⟨pfx ++ fi.name, fi.help, v'⟩]⟩) ∧
    (fi.dval = none → (readField rec fi.idx).supported = true →
       register pfx rec fs fi =
         .ok rec ⟨fs.flags ++ [⟨pfx ++ fi.name, fi.help, readField rec fi.idx⟩]⟩) := by
  constructor
  · intro d v' hd hp
    obtain ⟨hsd, hsup⟩ := setDefault_parsesTo rec fi d v' hd hp
    exact register_ok_of pfx rec fs fi (writeField rec fi.idx v') v' hsup hsd
      (readField_writeField rec fi.idx v' hidx) hfresh
  · intro hd hsup
    have hsd : setDefault rec fi = .ok rec := by simp [setDefault, hd]
    exact register_ok_of pfx rec fs fi rec (readField rec fi.idx) hsup hsd rfl hfresh

/-- Witness for C1: an int field with current value 17 and default "42"
registers with the field overwritten to 42 and baseline 42; the same field
without a default registers with baseline 17. -/
theorem spec_c1_witness :
    register "" [c1Field] emptyFS { idx := 0, name := "count", help := "help", dval := some "42" }
      = .ok (writeField [c1Field] 0 (.intV 42)) ⟨[⟨"count", "help", .intV 42⟩]⟩ ∧
    register "" [c1FieldN] emptyFS { idx := 0, name := "count2", help := "help2", dval := none }
      = .ok [c1FieldN] ⟨[⟨"count2", "help2", .intV 17⟩]⟩ := by
  constructor
  · exact (spec_c1 "" [c1Field] emptyFS
      { idx := 0, name := "count", help := "help", dval := some "42" }
      (by decide) (by intro g hg; cases hg)).1 "42" (.intV 42) rfl rfl
  · exact (spec_c1 "" [c1FieldN] emptyFS
      { idx := 0, name := "count2", help := "help2", dval := none }
      (by decide) (by intro g hg; cases hg)).2 rfl rfl

/-- The registration loop processes a concatenation left to right, stopping
at the first non-ok outcome. -/
theorem registerLoop_append (pfx : String) :
    ∀ (a b : List FlagInfo) (rec : List StructField) (fs : FlagSet),
      registerLoop pfx (a ++ b) rec fs =
        match registerLoop pfx a rec fs with
        | .ok r f => registerLoop pfx b r f
        | .err e r f => .err e r f
        | .panicked m r f => .panicked m r f := by
  intro a
  induction a with
  | nil => intro b rec fs; rfl
  | cons fi rest ih =>
    intro b rec fs
    show registerLoop pfx (fi :: (rest ++ b)) rec fs = _
    simp only [registerLoop]
    cases register pfx rec fs fi with
    | ok rec' fs' => exact ih b rec' fs'
    | err e r f => rfl
    | panicked m r f => rfl

/-- register leaves the flag set untouched when it returns an error. -/
theorem register_err_fs (pfx : String) (rec : List StructField) (fs : FlagSet)
    (fi : FlagInfo) (e : Err) (r' : List StructField) (f' : FlagSet)
    (h : register pfx rec fs fi = .err e r' f') : f' = fs := by
  simp only [register] at h
  split at h
  · injection h with _ _ hf
    exact hf.symm
  · cases h
  · split at h
    · injection h with _ _ hf
      exact hf.symm
    · split at h
      · cases h
      · cases h

/-- Counterexample to C4 as stated: a record whose first field registers
fine and whose second field has the unparseable default "abc" makes the
call return an error — but the first field's flag has already been
installed, so flag-set mutation did occur during the failing call. -/
theorem spec_c4_counterexample :
    (RegisterTag "" (.ptrToStruct [c4FieldA, c4FieldB]) emptyFS).isErr = true ∧
    (RegisterTag "" (.ptrToStruct [c4FieldA, c4FieldB]) emptyFS).fsOut.flags.map Flag.name
      = ["a"] :=
  ⟨rfl, rfl⟩

/-- Claim C4 as amended: when the scan splits as a prefix that registers
successfully followed by a field whose registration returns an error, the
whole call returns exactly that error with exactly the state reached after
the prefix: flags of the preceding fields stay installed (no rollback), and
no flag is installed for the failing field or any later field. -/
theorem spec_c4 (tag : String) (fields : List StructField) (fs : FlagSet)
    (infos₁ : List FlagInfo) (fi : FlagInfo) (infos₂ : List FlagInfo)
    (rec₁ r₂ : List StructField) (fs₁ fs₂ : FlagSet) (e : Err)
    (hscan : scanFields fields = infos₁ ++ fi :: infos₂)
    (h1 : registerLoop tag infos₁ fields fs = .ok rec₁ fs₁)
    (h2 : register tag rec₁ fs₁ fi = .err e r₂ fs₂) :
    RegisterTag tag (.ptrToStruct fields) fs = .err e r₂ fs₂ ∧ fs₂ = fs₁ := by
  refine ⟨?_, register_err_fs tag rec₁ fs₁ fi e r₂ fs₂ h2⟩
  show (match parseFlags (.ptrToStruct fields) with
    | .error e => RegResult.err e (recordOf (.ptrToStruct fields)) fs
    | .ok infos =>
      if infos.isEmpty then RegResult.err .noFlaggable (recordOf (.ptrToStruct fields)) fs
      else registerLoop tag infos (recordOf (.ptrToStruct fields)) fs) = .err e r₂ fs₂
  simp only [parseFlags, recordOf, hscan]
  rw [if_neg (by simp)]
  rw [registerLoop_append tag infos₁ (fi :: infos₂) fields fs, h1]
  simp only [registerLoop, h2]

/-- Witness for the amended C4 at the concrete two-field record: the call
returns the strconv error and the flag set holds exactly the first field's
flag. -/
theorem spec_c4_witness :
    RegisterTag "" (.ptrToStruct [c4FieldA, c4FieldB]) emptyFS
      = .err (.numError "ParseInt" "abc" "invalid syntax") [c4FieldA, c4FieldB]
          ⟨[⟨"a", "ha", .stringV "x"⟩]⟩ ∧
    (⟨[⟨"a", "ha", .stringV "x"⟩]⟩ : FlagSet) = ⟨[⟨"a", "ha", .stringV "x"⟩]⟩ :=
  spec_c4 "" [c4FieldA, c4FieldB] emptyFS
    [{ idx := 0, name := "a", help := "ha", dval := none }]
    { idx := 1, name := "b", help := "hb", dval := some "abc" }
    [] [c4FieldA, c4FieldB] [c4FieldA, c4FieldB]
    ⟨[⟨"a", "ha", .stringV "x"⟩]⟩ ⟨[⟨"a", "ha", .stringV "x"⟩]⟩
    (.numError "ParseInt" "abc" "invalid syntax") rfl rfl rfl

/-- A successful register installed the flag under a name that was fresh in
the flag set, and appended exactly that name. -/
theorem register_ok_names (pfx : String) (rec : List StructField) (fs : FlagSet)
    (fi : FlagInfo) (rec' : List StructField) (fs' : FlagSet)
    (h : register pfx rec fs fi = .ok rec' fs') :
    (∀ g ∈ fs.flags, g.name ≠ pfx ++ fi.name) ∧
    fs'.flags.map Flag.name = fs.flags.map Flag.name ++ [pfx ++ fi.name] := by
  cases hany : fs.flags.any (fun g => g.name == pfx ++ fi.name) with
  | true =>
    exfalso
    simp only [register] at h
    split at h
    · cases h
    · cases h
    · split at h
      · cases h
      all_goals simp [fsVar, hany] at h
  | false =>
    have hfresh : ∀ g ∈ fs.flags, g.name ≠ pfx ++ fi.name := by
      intro g hg heq
      have hc : fs.flags.any (fun g => g.name == pfx ++ fi.name) = true :=
        List.any_eq_true.mpr ⟨g, hg, by simp [heq]⟩
      rw [hany] at hc
      cases hc
    refine ⟨hfresh, ?_⟩
    simp only [register] at h
    split at h
    · cases h
    · cases h
    · split at h
      · cases h
      all_goals
        (simp only [fsVar, hany, Bool.false_eq_true, if_false] at h
         injection h with h1 h2
         subst h2
         simp)

/-- Every flagInfo of a loop that completes successfully had a prefixed
name that was fresh in the flag set the loop started from. -/
theorem registerLoop_ok_fresh (pfx : String) :
    ∀ (infos : List FlagInfo) (rec : List StructField) (fs : FlagSet)
      (r' : List StructField) (f' : FlagSet),
      registerLoop pfx infos rec fs = .ok r' f' →
      ∀ fi' ∈ infos, ∀ g ∈ fs.flags, g.name ≠ pfx ++ fi'.name := by
  intro infos
  induction infos with
  | nil =>
    intro rec fs r' f' h fi' hfi'
    cases hfi'
  | cons fi rest ih =>
    intro rec fs r' f' h fi' hfi'
    simp only [registerLoop] at h
    cases hreg : register pfx rec fs fi with
    | ok rec' fs' =>
      rw [hreg] at h
      obtain ⟨hfresh, hnames⟩ := register_ok_names pfx rec fs fi rec' fs' hreg
      rcases List.mem_cons.mp hfi' with rfl | hmem
      · exact hfresh
      · intro g hg heq
        have hmn : g.name ∈ fs'.flags.map Flag.name := by
          rw [hnames]
          exact List.mem_append_left _ (List.mem_map_of_mem _ hg)
        obtain ⟨g', hg', hname'⟩ := List.mem_map.mp hmn
        exact ih rec' fs' r' f' h fi' hmem g' hg' (hname'.trans heq)
    | err e r f =>
      rw [hreg] at h
      cases h
    | panicked m r f =>
      rw [hreg] at h
      cases h

/-- A loop that completes successfully used pairwise distinct prefixed
names: the external flag set would have panicked on a repeat. -/
theorem registerLoop_ok_nodup (pfx : String) :
    ∀ (infos : List FlagInfo) (rec : List StructField) (fs : FlagSet)
      (r' : List StructField) (f' : FlagSet),
      registerLoop pfx infos rec fs = .ok r' f' →
      (infos.map (fun fi => pfx ++ fi.name)).Nodup := by
  intro infos
  induction infos with
  | nil => intro rec fs r' f' _; simp
  | cons fi rest ih =>
    intro rec fs r' f' h
    simp only [registerLoop] at h
    cases hreg : register pfx rec fs fi with
    | ok rec' fs' =>
      rw [hreg] at h
      obtain ⟨_, hnames⟩ := register_ok_names pfx rec fs fi rec' fs' hreg
      rw [List.map_cons, List.nodup_cons]
      constructor
      · intro hmem
        obtain ⟨fi', hfi', heqname⟩ := List.mem_map.mp hmem
        have hself : pfx ++ fi.name ∈ fs'.flags.map Flag.name := by
          rw [hnames]
          exact List.mem_append_right _ (by simp)
        obtain ⟨g, hg, hgname⟩ := List.mem_map.mp hself
        exact registerLoop_ok_fresh pfx rest rec' fs' r' f' h fi' hfi' g hg
          (hgname.trans heqname.symm)
      · exact ih rec' fs' r' f' h
    | err e r f =>
      rw [hreg] at h
      cases h
    | panicked m r f =>
      rw [hreg] at h
      cases h

/-- Claim C6: when two (distinct positions of) eligible fields yield the
same flag name after prefixing, the registration call does not succeed —
the repeat registration is refused by the flag set (a redefinition panic in
the Go flag package), so the call can never install both and return
normally. -/
theorem spec_c6 (tag : String) (fields : List StructField) (fs : FlagSet)
    (i j : Fin (scanFields fields).length) (hij : i ≠ j)
    (hname : tag ++ ((scanFields fields).get i).name
      = tag ++ ((scanFields fields).get j).name) :
    (RegisterTag tag (.ptrToStruct fields) fs).isOk = false := by
  cases hres : RegisterTag tag (.ptrToStruct fields) fs with
  | ok r' f' =>
    exfalso
    simp only [RegisterTag, parseFlags, recordOf] at hres
    split at hres
    · cases hres
    · have hnodup := registerLoop_ok_nodup tag (scanFields fields) fields fs r' f' hres
      have hlt : ∀ k : Fin (scanFields fields).length,
          (k : Nat) < ((scanFields fields).map (fun fi => tag ++ fi.name)).length := by
        intro k
        simpa using k.isLt
      have hget : ((scanFields fields).map (fun fi => tag ++ fi.name)).get ⟨i, hlt i⟩
          = ((scanFields fields).map (fun fi => tag ++ fi.name)).get ⟨j, hlt j⟩ := by
        simp only [List.get_map]
        exact hname
      have := (List.Nodup.get_inj_iff hnodup).mp hget
      apply hij
      apply Fin.ext
      simpa using Fin.mk.injEq .. ▸ this
  | err e r f => rfl
  | panicked m r f => rfl

/-- Witness for C6: two fields both declared as flag "x" make the call end
in the flag-set redefinition panic, not success. -/
theorem spec_c6_witness :
    (RegisterTag "" (.ptrToStruct c6Fields) emptyFS).isOk = false :=
  spec_c6 "" c6Fields emptyFS ⟨0, by decide⟩ ⟨1, by decide⟩ (by decide) rfl

theorem set_append_left {α : Type} :
    ∀ (l₁ l₂ : List α) (i : Nat) (x : α), i < l₁.length →
      (l₁ ++ l₂).set i x = l₁.set i x ++ l₂ := by
  intro l₁
  induction l₁ with
  | nil => intro l₂ i x h; cases h
  | cons a as ih =>
    intro l₂ i x h
    cases i with
    | zero => rfl
    | succ k =>
      show a :: (as ++ l₂).set k x = a :: (as.set k x ++ l₂)
      rw [ih l₂ k x (Nat.lt_of_succ_lt_succ h)]

theorem set_append_right {α : Type} :
    ∀ (l₁ l₂ : List α) (i : Nat) (x : α), l₁.length ≤ i →
      (l₁ ++ l₂).set i x = l₁ ++ l₂.set (i - l₁.length) x := by
  intro l₁
  induction l₁ with
  | nil => intro l₂ i x _; rfl
  | cons a as ih =>
    intro l₂ i x h
    cases i with
    | zero => cases h
    | succ k =>
      show a :: (as ++ l₂).set k x = a :: (as ++ l₂.set (k + 1 - (as.length + 1)) x)
      rw [Nat.succ_sub_succ]
      rw [ih l₂ k x (Nat.le_of_succ_le_succ h)]

theorem getElem?_ins {sf : StructField} {p : Nat} {r l : List StructField}
    (h : Ins sf p r l) (i : Nat) : l[shiftIdx p i]? = r[i]? := by
  obtain ⟨g₁, g₂, rfl, rfl, rfl⟩ := h
  unfold shiftIdx
  by_cases hle : g₁.length ≤ i
  · rw [if_pos hle]
    rw [List.getElem?_append, if_neg (by omega), List.getElem?_append, if_neg (by omega)]
    have hsub : i + 1 - g₁.length = (i - g₁.length) + 1 := by omega
    rw [hsub, List.getElem?_cons_succ]
  · rw [if_neg hle]
    rw [List.getElem?_append, if_pos (by omega), List.getElem?_append, if_pos (by omega)]

theorem set_ins {sf : StructField} {p : Nat} {r l : List StructField}
    (h : Ins sf p r l) (i : Nat) (x : StructField) :
    Ins sf p (r.set i x) (l.set (shiftIdx p i) x) := by
  obtain ⟨g₁, g₂, rfl, rfl, rfl⟩ := h
  unfold shiftIdx
  by_cases hle : g₁.length ≤ i
  · rw [if_pos hle]
    rw [set_append_right g₁ g₂ i x hle, set_append_right g₁ (sf :: g₂) (i + 1) x (by omega)]
    have hsub : i + 1 - g₁.length = (i - g₁.length) + 1 := by omega
    rw [hsub]
    exact ⟨g₁, g₂.set (i - g₁.length) x, rfl, rfl, rfl⟩
  · rw [if_neg hle]
    rw [set_append_left g₁ g₂ i x (by omega), set_append_left g₁ (sf :: g₂) i x (by omega)]
    exact ⟨g₁.set i x, g₂, rfl, rfl, by simp⟩

theorem readField_ins {sf : StructField} {p : Nat} {r l : List StructField}
    (h : Ins sf p r l) (i : Nat) : readField l (shiftIdx p i) = readField r i := by
  unfold readField
  rw [getElem?_ins h i]

theorem writeField_ins {sf : StructField} {p : Nat} {r l : List StructField}
    (h : Ins sf p r l) (i : Nat) (v : Val) :
    Ins sf p (writeField r i v) (writeField l (shiftIdx p i) v) := by
  unfold writeField
  rw [getElem?_ins h i]
  cases r[i]? with
  | none => exact h
  | some sfv => exact set_ins h i { sfv with value := v }

/-- setDefault simulates across a field insertion: the flagInfo with the
translated pointer behaves identically on the larger record. -/
theorem setDefault_ins {sf : StructField} {p : Nat} {r l : List StructField}
    (h : Ins sf p r l) (fi : FlagInfo) :
    DefSim sf p (setDefault r fi) (setDefault l (shiftInfo p fi)) := by
  cases hdv : fi.dval with
  | none =>
    simp only [setDefault, shiftInfo, hdv]
    exact h
  | some d =>
    simp only [setDefault, shiftInfo, hdv]
    rw [readField_ins h fi.idx]
    cases hv : readField r fi.idx with
    | boolV b =>
      cases hpb : parseBool d with
      | ok a =>
        simp only [hpb]
        exact writeField_ins h fi.idx (.boolV a)
      | error e =>
        simp only [hpb]
        exact rfl
    | durationV n =>
      cases hpb : parseDuration d with
      | ok a =>
        simp only [hpb]
        exact writeField_ins h fi.idx (.durationV a)
      | error e =>
        simp only [hpb]
        exact rfl
    | floatV f =>
      cases hpb : parseFloat64 d with
      | ok a =>
        simp only [hpb]
        exact writeField_ins h fi.idx (.floatV a)
      | error e =>
        simp only [hpb]
        exact rfl
    | intV n =>
      cases hpb : parseInt d with
      | ok a =>
        simp only [hpb]
        exact writeField_ins h fi.idx (.intV a)
      | error e =>
        simp only [hpb]
        exact rfl
    | int64V n =>
      cases hpb : parseInt d with
      | ok a =>
        simp only [hpb]
        exact writeField_ins h fi.idx (.int64V a)
      | error e =>
        simp only [hpb]
        exact rfl
    | stringV s0 =>
      simp only []
      exact writeField_ins h fi.idx (.stringV d)
    | uintV n =>
      cases hpb : parseUint d with
      | ok a =>
        simp only [hpb]
        exact writeField_ins h fi.idx (.uintV a)
      | error e =>
        simp only [hpb]
        exact rfl
    | uint64V n =>
      cases hpb : parseUint d with
      | ok a =>
        simp only [hpb]
        exact writeField_ins h fi.idx (.uint64V a)
      | error e =>
        simp only [hpb]
        exact rfl
    | customV st set =>
      cases hpb : set st d with
      | ok st' =>
        simp only [hpb]
        exact writeField_ins h fi.idx (.customV st' set)
      | error m =>
        simp only [hpb]
        exact rfl
    | otherV tn => exact rfl

/-- register simulates across a field insertion. -/
theorem register_ins {sf : StructField} {p : Nat} {r l : List StructField}
    (h : Ins sf p r l) (pfx : String) (fs : FlagSet) (fi : FlagInfo) :
    RegSim sf p (register pfx r fs fi) (register pfx l fs (shiftInfo p fi)) := by
  have hsd := setDefault_ins h fi
  simp only [register, shiftInfo] at *
  cases hR : setDefault r fi with
  | err e =>
    rw [hR] at hsd
    cases hL : setDefault l ⟨shiftIdx p fi.idx, fi.name, fi.help, fi.dval⟩ with
    | err e2 =>
      rw [hL] at hsd
      exact ⟨hsd, h, rfl⟩
    | ok l' => rw [hL] at hsd; cases hsd
    | panicked m2 => rw [hL] at hsd; cases hsd
  | panicked m =>
    rw [hR] at hsd
    cases hL : setDefault l ⟨shiftIdx p fi.idx, fi.name, fi.help, fi.dval⟩ with
    | panicked m2 =>
      rw [hL] at hsd
      exact ⟨hsd, h, rfl⟩
    | ok l' => rw [hL] at hsd; cases hsd
    | err e2 => rw [hL] at hsd; cases hsd
  | ok r' =>
    rw [hR] at hsd
    cases hL : setDefault l ⟨shiftIdx p fi.idx, fi.name, fi.help, fi.dval⟩ with
    | err e2 => rw [hL] at hsd; cases hsd
    | panicked m2 => rw [hL] at hsd; cases hsd
    | ok l' =>
      rw [hL] at hsd
      have hrf : readField l' (shiftIdx p fi.idx) = readField r' fi.idx :=
        readField_ins hsd fi.idx
      simp only [hrf]
      cases hv : readField r' fi.idx with
      | otherV tn => exact ⟨rfl, hsd, rfl⟩
      | boolV b =>
        cases hfv : fsVar fs (pfx ++ fi.name) fi.help (.boolV b) with
        | ok fs' =>
          simp only [hfv]
          exact ⟨hsd, rfl⟩
        | error m =>
          simp only [hfv]
          exact ⟨rfl, hsd, rfl⟩
      | durationV n =>
        cases hfv : fsVar fs (pfx ++ fi.name) fi.help (.durationV n) with
        | ok fs' =>
          simp only [hfv]
          exact ⟨hsd, rfl⟩
        | error m =>
          simp only [hfv]
          exact ⟨rfl, hsd, rfl⟩
      | floatV f =>
        cases hfv : fsVar fs (pfx ++ fi.name) fi.help (.floatV f) with
        | ok fs' =>
          simp only [hfv]
          exact ⟨hsd, rfl⟩
        | error m =>
          simp only [hfv]
          exact ⟨rfl, hsd, rfl⟩
      | intV n =>
        cases hfv : fsVar fs (pfx ++ fi.name) fi.help (.intV n) with
        | ok fs' =>
          simp only [hfv]
          exact ⟨hsd, rfl⟩
        | error m =>
          simp only [hfv]
          exact ⟨rfl, hsd, rfl⟩
      | int64V n =>
        cases hfv : fsVar fs (pfx ++ fi.name) fi.help (.int64V n) with
        | ok fs' =>
          simp only [hfv]
          exact ⟨hsd, rfl⟩
        | error m =>
          simp only [hfv]
          exact ⟨rfl, hsd, rfl⟩
      | stringV s0 =>
        cases hfv : fsVar fs (pfx ++ fi.name) fi.help (.stringV s0) with
        | ok fs' =>
          simp only [hfv]
          exact ⟨hsd, rfl⟩
        | error m =>
          simp only [hfv]
          exact ⟨rfl, hsd, rfl⟩
      | uintV n =>
        cases hfv : fsVar fs (pfx ++ fi.name) fi.help (.uintV n) with
        | ok fs' =>
          simp only [hfv]
          exact ⟨hsd, rfl⟩
        | error m =>
          simp only [hfv]
          exact ⟨rfl, hsd, rfl⟩
      | uint64V n =>
        cases hfv : fsVar fs (pfx ++ fi.name) fi.help (.uint64V n) with
        | ok fs' =>
          simp only [hfv]
          exact ⟨hsd, rfl⟩
        | error m =>
          simp only [hfv]
          exact ⟨rfl, hsd, rfl⟩
      | customV st set =>
        cases hfv : fsVar fs (pfx ++ fi.name) fi.help (.customV st set) with
        | ok fs' =>
          simp only [hfv]
          exact ⟨hsd, rfl⟩
        | error m =>
          simp only [hfv]
          exact ⟨rfl, hsd, rfl⟩

/-- The registration loop simulates across a field insertion. -/
theorem registerLoop_ins (sf : StructField) (p : Nat) (pfx : String) :
    ∀ (infos : List FlagInfo) (r l : List StructField) (fs : FlagSet),
      Ins sf p r l →
      RegSim sf p (registerLoop pfx infos r fs)
        (registerLoop pfx (infos.map (shiftInfo p)) l fs) := by
  intro infos
  induction infos with
  | nil =>
    intro r l fs h
    exact ⟨h, rfl⟩
  | cons fi rest ih =>
    intro r l fs h
    simp only [List.map_cons, registerLoop]
    have hr := register_ins h pfx fs fi
    cases hR : register pfx r fs fi with
    | ok r' f' =>
      rw [hR] at hr
      cases hL : register pfx l fs (shiftInfo p fi) with
      | ok l' f2 =>
        rw [hL] at hr
        obtain ⟨hi, rfl⟩ := hr
        exact ih r' l' f' hi
      | err e2 r2 f2 => rw [hL] at hr; cases hr
      | panicked m2 r2 f2 => rw [hL] at hr; cases hr
    | err e r2 f2 =>
      rw [hR] at hr
      cases hL : register pfx l fs (shiftInfo p fi) with
      | err e2 r3 f3 => rw [hL] at hr; exact hr
      | ok l' f3 => rw [hL] at hr; cases hr
      | panicked m2 r3 f3 => rw [hL] at hr; cases hr
    | panicked m r2 f2 =>
      rw [hR] at hr
      cases hL : register pfx l fs (shiftInfo p fi) with
      | panicked m2 r3 f3 => rw [hL] at hr; exact hr
      | ok l' f3 => rw [hL] at hr; cases hr
      | err e2 r3 f3 => rw [hL] at hr; cases hr

theorem newFlagInfo_shift (sf' : StructField) (p i : Nat) (hpi : p ≤ i) :
    (newFlagInfo sf' i).map (shiftInfo p) = newFlagInfo sf' (i + 1) := by
  simp only [newFlagInfo]
  split
  · rfl
  · simp [shiftInfo, shiftIdx, hpi]

theorem scanFieldsFrom_shift (fields : List StructField) (p : Nat) :
    ∀ n, p ≤ n → (scanFieldsFrom n fields).map (shiftInfo p) = scanFieldsFrom (n + 1) fields := by
  induction fields with
  | nil => intro n _; rfl
  | cons a rest ih =>
    intro n hpn
    simp only [scanFieldsFrom]
    cases hna : newFlagInfo a n with
    | some fi =>
      have hs2 : newFlagInfo a (n + 1) = some (shiftInfo p fi) := by
        rw [← newFlagInfo_shift a p n hpn, hna]
        rfl
      rw [hs2]
      simp only [List.map_cons]
      rw [ih (n + 1) (by omega)]
    | none =>
      have hs2 : newFlagInfo a (n + 1) = none := by
        rw [← newFlagInfo_shift a p n hpn, hna]
        rfl
      rw [hs2]
      exact ih (n + 1) (by omega)

theorem newFlagInfo_idx (a : StructField) (n : Nat) (fi : FlagInfo)
    (h : newFlagInfo a n = some fi) : fi.idx = n := by
  simp only [newFlagInfo] at h
  split at h
  · cases h
  · obtain rfl := Option.some.inj h
    rfl

theorem shiftInfo_eq_self (p : Nat) (fi : FlagInfo) (h : fi.idx < p) :
    shiftInfo p fi = fi := by
  simp [shiftInfo, shiftIdx, Nat.not_le.mpr h]

/-- Scanning a record with an ineligible field inserted at position
`f₁.length` yields the same flagInfos as scanning without it, with field
pointers past the insertion point translated up by one. -/
theorem scanFieldsFrom_insert (sf : StructField) (hinel : ∀ n, newFlagInfo sf n = none)
    (f₂ : List StructField) :
    ∀ (f₁ : List StructField) (n : Nat),
      scanFieldsFrom n (f₁ ++ sf :: f₂)
        = (scanFieldsFrom n (f₁ ++ f₂)).map (shiftInfo (n + f₁.length)) := by
  intro f₁
  induction f₁ with
  | nil =>
    intro n
    show scanFieldsFrom n (sf :: f₂) = (scanFieldsFrom n f₂).map (shiftInfo (n + 0))
    simp only [scanFieldsFrom, hinel n, Nat.add_zero]
    rw [scanFieldsFrom_shift f₂ n n (le_refl n)]
  | cons a rest ih =>
    intro n
    show scanFieldsFrom n (a :: (rest ++ sf :: f₂))
      = (scanFieldsFrom n (a :: (rest ++ f₂))).map (shiftInfo (n + (a :: rest).length))
    simp only [scanFieldsFrom]
    cases hna : newFlagInfo a n with
    | some fi =>
      have hidx : fi.idx = n := newFlagInfo_idx a n fi hna
      have hlen : n + (a :: rest).length = (n + 1) + rest.length := by
        simp only [List.length_cons]
        omega
      simp only [List.map_cons]
      rw [hlen]
      rw [shiftInfo_eq_self ((n + 1) + rest.length) fi (by rw [hidx]; omega)]
      rw [ih (n + 1)]
    | none =>
      have hlen : n + (a :: rest).length = (n + 1) + rest.length := by
        simp only [List.length_cons]
        omega
      rw [hlen]
      exact ih (n + 1)

/-- The outcome components carried by the simulation relation. -/
theorem RegSim.out {sf : StructField} {p : Nat} {x y : RegResult} (h : RegSim sf p x y) :
    y.status = x.status ∧ y.fsOut = x.fsOut ∧ Ins sf p x.recOut y.recOut := by
  cases x with
  | ok r f =>
    cases y with
    | ok r2 f2 =>
      obtain ⟨hi, rfl⟩ := h
      exact ⟨rfl, rfl, hi⟩
    | err e2 r2 f2 => cases h
    | panicked m2 r2 f2 => cases h
  | err e r f =>
    cases y with
    | err e2 r2 f2 =>
      obtain ⟨rfl, hi, rfl⟩ := h
      exact ⟨rfl, rfl, hi⟩
    | ok r2 f2 => cases h
    | panicked m2 r2 f2 => cases h
  | panicked m r f =>
    cases y with
    | panicked m2 r2 f2 =>
      obtain ⟨rfl, hi, rfl⟩ := h
      exact ⟨rfl, rfl, hi⟩
    | ok r2 f2 => cases h
    | err e2 r2 f2 => cases h

/-- Claim C9: an ineligible field (unexported, or exported without a flag
declaration) produces no descriptor, and its presence anywhere in the
record changes nothing observable: the call has the same status and the
same final flag set as the call on the record without it — so the field is
never registered and never causes a failure — and the final record is the
record of the other call with the field reinserted, unchanged, in its
place. -/
theorem spec_c9 (sf : StructField)
    (hinel : tagGet sf.flagTag = "" ∨ sf.pkgPath ≠ "")
    (f₁ f₂ : List StructField) (tag : String) (fs : FlagSet) :
    (∀ n, newFlagInfo sf n = none) ∧
    ((RegisterTag tag (.ptrToStruct (f₁ ++ sf :: f₂)) fs).status
        = (RegisterTag tag (.ptrToStruct (f₁ ++ f₂)) fs).status ∧
      (RegisterTag tag (.ptrToStruct (f₁ ++ sf :: f₂)) fs).fsOut
        = (RegisterTag tag (.ptrToStruct (f₁ ++ f₂)) fs).fsOut ∧
      Ins sf f₁.length (RegisterTag tag (.ptrToStruct (f₁ ++ f₂)) fs).recOut
        (RegisterTag tag (.ptrToStruct (f₁ ++ sf :: f₂)) fs).recOut) := by
  have hnone : ∀ n, newFlagInfo sf n = none := by
    intro n
    simp only [newFlagInfo]
    rw [if_pos hinel]
  refine ⟨hnone, ?_⟩
  have hscan : scanFields (f₁ ++ sf :: f₂)
      = (scanFields (f₁ ++ f₂)).map (shiftInfo f₁.length) := by
    have hs := scanFieldsFrom_insert sf hnone f₂ f₁ 0
    simpa [scanFields] using hs
  have hins : Ins sf f₁.length (f₁ ++ f₂) (f₁ ++ sf :: f₂) := ⟨f₁, f₂, rfl, rfl, rfl⟩
  have hemp : ((scanFields (f₁ ++ f₂)).map (shiftInfo f₁.length)).isEmpty
      = (scanFields (f₁ ++ f₂)).isEmpty := by
    cases scanFields (f₁ ++ f₂) <;> rfl
  simp only [RegisterTag, parseFlags, recordOf, hscan, hemp]
  cases hie : (scanFields (f₁ ++ f₂)).isEmpty with
  | true =>
    simp only [if_true]
    exact ⟨rfl, rfl, hins⟩
  | false =>
    simp only [Bool.false_eq_true, if_false]
    exact (registerLoop_ins sf f₁.length tag (scanFields (f₁ ++ f₂))
      (f₁ ++ f₂) (f₁ ++ sf :: f₂) fs hins).out

/-- Witness for C9: adding the untagged field Other after an eligible
string field changes neither the outcome status nor the installed flags,
and the field itself survives unmodified in place. -/
theorem spec_c9_witness :
    (RegisterTag "" (.ptrToStruct [c4FieldA, c9Field]) emptyFS).status
      = (RegisterTag "" (.ptrToStruct [c4FieldA]) emptyFS).status ∧
    (RegisterTag "" (.ptrToStruct [c4FieldA, c9Field]) emptyFS).fsOut
      = (RegisterTag "" (.ptrToStruct [c4FieldA]) emptyFS).fsOut ∧
    Ins c9Field 1 (RegisterTag "" (.ptrToStruct [c4FieldA]) emptyFS).recOut
      (RegisterTag "" (.ptrToStruct [c4FieldA, c9Field]) emptyFS).recOut :=
  (spec_c9 c9Field (Or.inl rfl) [c4FieldA] [] "" emptyFS).2

end Flagstruct
